import Mathlib

/-!
Shallow embedding of the NutriGuide document filtering and classification
pipeline (`backend/doc_processor.py`): per-page admission heuristics,
life-stage and safety-level tagging, nutrient-table detection, the
per-document pipeline, the corpus loader, and the corpus-level quality
gate.  Python strings are modelled as Lean `String`; the case-insensitive
substring matching, word counting and whitespace stripping used by the
source are given explicit structurally recursive definitions over
`List Char`, mirroring Python `in`, `str.split()` and `str.strip()` for
the ASCII texts the pipeline handles.
-/

set_option maxRecDepth 100000

/-- Model of Python `needle == haystack[:len(needle)]`: does `needle`
occur at the very start of `haystack`? -/
def matchHere : List Char → List Char → Bool
  | [], _ => true
  | _ :: _, [] => false
  | a :: as, b :: bs => a == b && matchHere as bs

/-- Model of Python `needle in haystack` on character lists. -/
def hasSub (needle : List Char) : List Char → Bool
  | [] => needle.isEmpty
  | c :: rest => matchHere needle (c :: rest) || hasSub needle rest

/-- Model of Python `needle in haystack` on strings (no case folding:
the source always lowercases explicitly before matching). -/
def strContains (haystack needle : String) : Bool :=
  hasSub needle.data haystack.data

/-- Model of Python `str.lower()` (ASCII case folding, which agrees with
Python on the ASCII vocabularies of the pipeline). -/
def lowerStr (s : String) : String :=
  ⟨s.data.map Char.toLower⟩

/-- Strip leading and trailing whitespace characters, Python `str.strip()`. -/
def trimChars (l : List Char) : List Char :=
  ((l.dropWhile Char.isWhitespace).reverse.dropWhile Char.isWhitespace).reverse

/-- Model of Python `str.strip()`. -/
def stripStr (s : String) : String :=
  ⟨trimChars s.data⟩

/-- Count maximal non-whitespace runs; the flag records whether the scan
is currently inside a word. -/
def countWordsAux : List Char → Bool → Nat
  | [], _ => 0
  | c :: rest, inWord =>
    if c.isWhitespace then countWordsAux rest false
    else (if inWord then 0 else 1) + countWordsAux rest true

/-- Model of Python `len(s.split())`. -/
def wordCount (s : String) : Nat :=
  countWordsAux s.data false

/-- Model of `sum(1 for kw in keywords if kw in text_lower)`. -/
def countMatches (keywords : List String) (text_lower : String) : Nat :=
  keywords.countP fun kw => strContains text_lower kw

namespace ContentFilter

/-- Keywords that indicate actual nutrition content
(`ContentFilter.NUTRITION_KEYWORDS`). -/
def NUTRITION_KEYWORDS : List String := [
  "guideline", "recommendation", "serving", "daily value", "mg", "gram",
  "sodium", "sugar", "fat", "vitamin", "mineral", "calorie", "dietary",
  "food group", "vegetable", "fruit", "dairy", "protein", "grain",
  "pregnant", "infant", "child", "adult", "elderly", "limit", "consume",
  "adequate intake", "tolerable upper", "reference value", "dietary allowance"]

/-- Patterns indicating administrative content
(`ContentFilter.USDA_ADMIN_PATTERNS`). -/
def USDA_ADMIN_PATTERNS : List String := [
  "table of contents", "message from the secretaries", "acknowledgments",
  "appendix", "bibliography", "references", "about this edition",
  "how to use this document", "part", "chapter", "section", "figure",
  "suggested citation", "dietaryguidelines.gov", "isbn",
  "printed in the united states", "government printing office",
  "library of congress", "executive summary", "key recommendations",
  "page x", "page xi", "page xii"]

/-- Embedding of `ContentFilter.is_low_value_page` (lines 75-107 of
`doc_processor.py`); `total_pages` is accepted and, as in the source,
never used. -/
def is_low_value_page (text : String) (page_num : Nat) (total_pages : Nat)
    (nutrition_matches : Nat) : Bool :=
  if text.data.isEmpty || (stripStr text).data.isEmpty then true
  else
    let text_lower := stripStr (lowerStr text)
    let word_count := wordCount text_lower
    if page_num ≤ 15 ∧
        1 ≤ USDA_ADMIN_PATTERNS.countP (fun pat => strContains text_lower pat) then
      true
    else if page_num ≤ 20 ∧ nutrition_matches < 3 then
      true
    else if strContains text_lower "table of contents" ∧
        strContains text_lower "page" ∧ word_count < 500 then
      true
    else if (strContains text_lower "copyright" ∨ strContains text_lower "©") ∧
        strContains text_lower "reserved" ∧ word_count < 300 then
      true
    else
      false

/-- The life-stage tags a text matches, in the order the groups are
tested by `ContentFilter.detect_life_stages` (lines 109-137); the Python
set is modelled as a duplicate-free list in this canonical order. -/
def life_stage_tags (text : String) : List String :=
  let tl := lowerStr text
  (if ["pregnant", "pregnancy", "maternal", "antenatal"].any
      (fun t => strContains tl t) then ["pregnant"] else []) ++
  (if ["breastfeed", "lactation", "breast milk"].any
      (fun t => strContains tl t) then ["breastfeeding"] else []) ++
  (if ["infant", "baby", "birth", "newborn", "0-12 months"].any
      (fun t => strContains tl t) then ["infants"] else []) ++
  (if ["child", "children", "adolescent", "teen", "toddler", "preschool"].any
      (fun t => strContains tl t) then ["children_teens"] else []) ++
  (if ["adult", "adults", "middle aged"].any (fun t => strContains tl t) then
    (if ["older", "elderly", "senior", "65+", "aging"].any
        (fun t => strContains tl t) then ["older_adults"] else ["adults"])
   else []) ++
  (if strContains tl "athlete" || strContains tl "sports" then ["athletes"] else [])

/-- Embedding of `ContentFilter.detect_life_stages`: the matched tags,
or `["general"]` when none matched (line 138). -/
def detect_life_stages (text : String) : List String :=
  let tags := life_stage_tags text
  if tags.isEmpty then ["general"] else tags

end ContentFilter

namespace TableProcessor

/-- Real nutrient table indicators (`detect_nutrient_tables`, lines 150-156). -/
def nutrient_indicators : List String := [
  "daily value", "dv%", "recommended intake", "adequate intake",
  "tolerable upper intake level", "ul", "ai", "rda",
  "food sources of", "milligrams per day", "grams per day",
  "sodium recommendation", "sugar recommendation", "fat recommendation",
  "vitamin d", "calcium", "potassium", "fiber", "nutrient"]

/-- Disqualifiers marking administrative tables (lines 159-163). -/
def non_nutrient_indicators : List String := [
  "table of contents", "figure", "appendix", "bibliography",
  "references", "acknowledgments", "contributors", "reviewers",
  "chapter", "section", "part", "page number"]

/-- Embedding of `TableProcessor.detect_nutrient_tables` (lines 144-169). -/
def detect_nutrient_tables (text : String) : Bool :=
  let text_lower := lowerStr text
  let nutrient_count := nutrient_indicators.countP fun ind => strContains text_lower ind
  let has_disqualifier := non_nutrient_indicators.any fun ind => strContains text_lower ind
  decide (2 ≤ nutrient_count) && !has_disqualifier

/-- Embedding of `TableProcessor.extract_table_content` (lines 171-177). -/
def extract_table_content (text : String) : String :=
  if detect_nutrient_tables text then
    "[NUTRIENT_TABLE_START]\n" ++ text ++ "\n[NUTRIENT_TABLE_END]"
  else
    text

end TableProcessor

/-- Flat metadata record of an emitted chunk (`DocumentMetadata.to_dict`,
lines 40-51): field names follow the dictionary keys. -/
structure DocMetadata where
  source : String
  source_file : String
  page : Nat
  document_type : String
  topics : List String
  life_stages : List String
  contains_tables : Bool
  safety_level : String
deriving DecidableEq, Repr

/-- A chunk: one admitted page with its metadata (the LangChain
`Document` the pipeline emits). -/
structure Document where
  page_content : String
  metadata : DocMetadata
deriving DecidableEq, Repr

/-- One manifest entry: required `id` and `path`, optional `topics`
(defaulting to `["general"]` on read, line 289). -/
structure ManifestEntry where
  id : String
  path : String
  topics : Option (List String)
deriving DecidableEq, Repr

/-- Model of `os.path.basename` on POSIX paths (line 286). -/
def basename (p : String) : String :=
  (p.splitOn "/").getLastD ""

/-- Medical trigger terms (line 275). -/
def medical_triggers : List String :=
  ["pregnant", "breastfeed", "infant", "medical condition", "disease",
   "disorder", "illness"]

/-- Professional-only trigger terms (line 279). -/
def professional_triggers : List String :=
  ["professional use only", "healthcare provider", "clinician", "prescribe",
   "diagnose", "treat"]

/-- Safety-level assignment of an admitted page (lines 270-281): the
source starts at `general`, overwrites with `medical_caution` on a
medical trigger, then overwrites with `professional_use_only` on a
professional trigger; pages with fewer than 3 nutrition keywords are
`administrative`. -/
def computeSafetyLevel (text_lower : String) (nutrition_matches : Nat) : String :=
  if nutrition_matches < 3 then "administrative"
  else
    let s0 := "general"
    let s1 := if medical_triggers.any (fun t => strContains text_lower t) then
      "medical_caution" else s0
    let s2 := if professional_triggers.any (fun t => strContains text_lower t) then
      "professional_use_only" else s1
    s2

/-- Document-type derivation from the manifest id (lines 231-236). -/
def deriveDocType (id : String) : String :=
  if ["nutrient", "sodium", "sugar", "fat", "vitamin"].any
      (fun k => strContains (lowerStr id) k) then "nutrient_specific"
  else if strContains (lowerStr id) "summary" || strContains (lowerStr id) "executive" then
    "summary"
  else "core_guideline"

/-- Body of the per-page loop of `process_single_document`
(lines 244-300): admission, life-stage tagging, table wrapping, safety
level and metadata assembly; `none` means the page was skipped. -/
def processPage (entry : ManifestEntry) (doc_type : String) (page_num : Nat)
    (total_pages : Nat) (text : String) : Option Document :=
  let text_lower := lowerStr text
  let nutrition_matches := countMatches ContentFilter.NUTRITION_KEYWORDS text_lower
  if ContentFilter.is_low_value_page text page_num total_pages nutrition_matches then
    none
  else
    let life_stages := if 3 ≤ nutrition_matches then
      ContentFilter.detect_life_stages text else ["general"]
    let contains_tables := TableProcessor.detect_nutrient_tables text
    let text2 := if contains_tables then
      TableProcessor.extract_table_content text else text
    let safety_level := computeSafetyLevel text_lower nutrition_matches
    some { page_content := text2,
           metadata := { source := entry.id,
                         source_file := basename entry.path,
                         page := page_num,
                         document_type := doc_type,
                         topics := entry.topics.getD ["general"],
                         life_stages := life_stages,
                         contains_tables := contains_tables,
                         safety_level := safety_level } }

instance {ε α : Type} [DecidableEq ε] [DecidableEq α] : DecidableEq (Except ε α)
  | .error a, .error b =>
    if h : a = b then .isTrue (by rw [h]) else
      .isFalse (by intro hh; cases hh; exact h rfl)
  | .error _, .ok _ => .isFalse (by intro hh; cases hh)
  | .ok _, .error _ => .isFalse (by intro hh; cases hh)
  | .ok a, .ok b =>
    if h : a = b then .isTrue (by rw [h]) else
      .isFalse (by intro hh; cases hh; exact h rfl)

/-- What the filesystem and PDF layer yield for one manifest entry:
the path is missing, the PDF cannot be read, or a sequence of per-page
extraction outcomes (an `Except.error` page models `extract_text`
raising, which the source catches and skips, lines 302-304). -/
inductive DocSource where
  | missing
  | readError
  | pdf (pages : List (Except Unit String))
deriving DecidableEq

/-- Page iteration of `process_single_document` (lines 243-304):
`page_num` is 1-based; a failing page contributes nothing. -/
def processPages (entry : ManifestEntry) (doc_type : String)
    (pages : List (Except Unit String)) : List Document :=
  pages.enum.filterMap fun p =>
    match p.2 with
    | .error _ => none
    | .ok text => processPage entry doc_type (p.1 + 1) pages.length text

/-- Embedding of `process_single_document` (lines 214-312): raises
(`Except.error`) on a missing file or unreadable PDF, otherwise emits
the admitted pages as chunks; a document producing zero chunks is not
an error. -/
def process_single_document (entry : ManifestEntry) (src : DocSource) :
    Except Unit (List Document) :=
  match src with
  | .missing => .error ()
  | .readError => .error ()
  | .pdf pages => .ok (processPages entry (deriveDocType entry.id) pages)

/-- Admin keywords of the corpus-level validator (lines 182-187). -/
def admin_keywords : List String := [
  "citation", "downloaded", "publication", "printed", "isbn",
  "government printing", "congress", "copyright", "reserved",
  "acknowledgments", "funding", "contract", "prepared by",
  "submitted to", "drafted by", "suggested citation", "dietaryguidelines.gov"]

/-- The flagging condition of `validate_processed_chunks` (lines 191-200):
admin-heavy short chunk with little nutrition content, or a suggested
citation, or the domain-reference string with little nutrition content. -/
def chunkFlagged (doc : Document) : Bool :=
  let text_lower := lowerStr doc.page_content
  let admin_count := countMatches admin_keywords text_lower
  let nutrition_count := countMatches ContentFilter.NUTRITION_KEYWORDS text_lower
  let word_count := wordCount text_lower
  (decide (2 ≤ admin_count) && decide (nutrition_count < 2) && decide (word_count < 300))
  || strContains text_lower "suggested citation"
  || (strContains text_lower "dietaryguidelines.gov" && decide (nutrition_count < 3))

/-- The diagnostic tuple appended for a flagged chunk (lines 201-209):
index, source id, page, admin count, nutrition count, word count,
preview. -/
def flaggedInfo (i : Nat) (doc : Document) :
    Nat × String × Nat × Nat × Nat × Nat × String :=
  let text_lower := lowerStr doc.page_content
  let admin_count := countMatches admin_keywords text_lower
  let nutrition_count := countMatches ContentFilter.NUTRITION_KEYWORDS text_lower
  let word_count := wordCount text_lower
  (i, doc.metadata.source, doc.metadata.page, admin_count, nutrition_count,
   word_count, (doc.page_content.take 150).replace "\n" " " ++ "...")

/-- Embedding of `validate_processed_chunks` (lines 180-211): the
diagnostic tuples of the flagged chunks, in input order. -/
def validate_processed_chunks (documents : List Document) :
    List (Nat × String × Nat × Nat × Nat × Nat × String) :=
  (documents.enum.filter fun p => chunkFlagged p.2).map fun p => flaggedInfo p.1 p.2

/-- The integrity-error message raised when validation would empty the
corpus (line 398). -/
def emptyCorpusError : String :=
  "No valid chunks remained after validation - safety compromised"

/-- The document-aggregation loop of `load_and_preprocess_documents`
(lines 340-359), processed in manifest order: returns the aggregated
chunk list, the successful-document count and the failed-document
count; every per-entry exception is caught and counted. -/
def processCorpusEntries : List (ManifestEntry × DocSource) →
    List Document × Nat × Nat
  | [] => ([], 0, 0)
  | e :: rest =>
    match process_single_document e.1 e.2 with
    | .error _ =>
      let r := processCorpusEntries rest
      (r.1, r.2.1, r.2.2 + 1)
    | .ok docs =>
      let r := processCorpusEntries rest
      (docs ++ r.1, r.2.1 + 1, r.2.2)

/-- The validation tail of `load_and_preprocess_documents`
(lines 366-403): `validation` is the outcome of the guarded call to
`validate_processed_chunks` — an `Except.error` models that call
raising, in which case the source falls back to returning every
aggregated chunk; otherwise flagged indices are removed and an
integrity error is raised if nothing remains. -/
def postValidate (all_documents : List Document)
    (validation : Except Unit (List (Nat × String × Nat × Nat × Nat × Nat × String))) :
    Except String (List Document) :=
  match validation with
  | .error _ => .ok all_documents
  | .ok problematic =>
    if problematic.isEmpty then .ok all_documents
    else
      let indices_to_remove := problematic.map fun t => t.1
      let cleaned_documents :=
        (all_documents.enum.filter fun p => !indices_to_remove.contains p.1).map Prod.snd
      if cleaned_documents.isEmpty then .error emptyCorpusError
      else .ok cleaned_documents

/-- Variant of `load_and_preprocess_documents` with the validator outcome made
explicit (the try/except at lines 366-372). -/
def load_and_preprocess_documentsWith (corpus : List (ManifestEntry × DocSource))
    (validation : Except Unit (List (Nat × String × Nat × Nat × Nat × Nat × String))) :
    Except String (List Document) :=
  postValidate (processCorpusEntries corpus).1 validation

/-- Embedding of `load_and_preprocess_documents` (lines 315-403) after a
successfully read manifest, with the filesystem/PDF layer supplied per
entry. -/
def load_and_preprocess_documents (corpus : List (ManifestEntry × DocSource)) :
    Except String (List Document) :=
  load_and_preprocess_documentsWith corpus
    (.ok (validate_processed_chunks (processCorpusEntries corpus).1))

/-- Manifest entry of end-to-end scenario A of the spec. -/
def dgaEntry : ManifestEntry := ⟨"dga_2020", "x.pdf", some ["sodium"]⟩

/-- Page text of end-to-end scenario A of the spec. -/
def dgaPage : String := "Sodium daily value 2300 mg adults limit"

/-- A chunk whose only content is the suggested-citation line of
end-to-end scenario C of the spec. -/
def suggestedCitationChunk : Document :=
  ⟨"Suggested citation: USDA (2020).",
   ⟨"dga_2020", "x.pdf", 1, "core_guideline", ["general"], ["general"],
    false, "general"⟩⟩

/-- A nutrition-dense chunk that the corpus validator does not flag. -/
def sodiumChunk : Document :=
  ⟨"Adults should limit sodium intake; the daily value is 2300 mg and dietary sugar should stay low.",
   ⟨"dga_2020", "x.pdf", 30, "core_guideline", ["sodium"], ["adults"],
    false, "general"⟩⟩

/-- A page text carrying both a medical trigger and a professional-use
trigger on top of dense nutrition content. -/
def triggerPage : String :=
  "Adults with a medical condition should ask a healthcare provider about sodium and sugar daily value limits."

/-- A nutrition-dense page text free of administrative, table-of-contents
and copyright patterns. -/
def c5Text : String :=
  "Sodium intake should stay below the daily value of 2300 mg for adults."

/-- Indices produced by `List.enumFrom n` are at least `n`. -/
theorem mem_enumFrom_le {α : Type} (l : List α) :
    ∀ (n : Nat) (q : Nat × α), q ∈ l.enumFrom n → n ≤ q.1 := by
  induction l with
  | nil => intro n q h; simp [List.enumFrom] at h
  | cons a t ih =>
    intro n q h
    simp only [List.enumFrom, List.mem_cons] at h
    cases h with
    | inl h => rw [h]
    | inr h => exact Nat.le_of_succ_le (ih (n + 1) q h)

/-- The value component of a member of `List.enumFrom n l` is a member of `l`. -/
theorem mem_enumFrom_snd {α : Type} (l : List α) :
    ∀ (n : Nat) (q : Nat × α), q ∈ l.enumFrom n → q.2 ∈ l := by
  induction l with
  | nil => intro n q h; simp [List.enumFrom] at h
  | cons a t ih =>
    intro n q h
    simp only [List.enumFrom, List.mem_cons] at h
    cases h with
    | inl h => rw [h]; exact List.mem_cons_self a t
    | inr h => exact List.mem_cons_of_mem a (ih (n + 1) q h)

/-- Every member of `l` shows up in `List.enumFrom n l` with some index. -/
theorem mem_of_mem_enumFrom {α : Type} (l : List α) :
    ∀ (n : Nat) (a : α), a ∈ l → ∃ q ∈ l.enumFrom n, q.2 = a := by
  induction l with
  | nil => intro n a h; cases h
  | cons x t ih =>
    intro n a h
    cases List.mem_cons.mp h with
    | inl h => exact ⟨(n, x), by simp [List.enumFrom], h.symm⟩
    | inr h =>
      obtain ⟨q, hq, hqa⟩ := ih (n + 1) a h
      exact ⟨q, by simp [List.enumFrom, hq], hqa⟩

/-- A list of indices all above `n` does not contain `n`. -/
theorem contains_eq_false_of_lt (n : Nat) :
    ∀ (idxs : List Nat), (∀ i ∈ idxs, n < i) → idxs.contains n = false := by
  intro idxs
  induction idxs with
  | nil => intro _; rfl
  | cons i t ih =>
    intro h
    have h1 : ¬n = i := Nat.ne_of_lt (h i (by simp))
    have h2 : n ∉ t := fun hm => absurd (h n (by simp [hm])) (lt_irrefl n)
    simp [List.contains_cons, h1, h2]

/-- Membership of an enumerated index in the flagged-index list computed
from the same enumeration is exactly the flag of the paired value. -/
theorem idx_contains {α : Type} (p : α → Bool) (l : List α) :
    ∀ (n : Nat) (q : Nat × α), q ∈ l.enumFrom n →
      (((l.enumFrom n).filter fun r => p r.2).map Prod.fst).contains q.1 = p q.2 := by
  induction l with
  | nil => intro n q h; simp [List.enumFrom] at h
  | cons a t ih =>
    intro n q hq
    have tail_ge : ∀ i, i ∈ (((t.enumFrom (n + 1)).filter fun r => p r.2).map Prod.fst) →
        n + 1 ≤ i := by
      intro i hi
      obtain ⟨r, hr, hri⟩ := List.mem_map.mp hi
      have hr' := List.mem_of_mem_filter hr
      have := mem_enumFrom_le t (n + 1) r hr'
      omega
    simp only [List.enumFrom, List.mem_cons] at hq
    cases hq with
    | inl h =>
      subst h
      show ((((n, a) :: t.enumFrom (n + 1)).filter fun r => p r.2).map Prod.fst).contains n
        = p a
      by_cases hpa : p a = true
      · simp [List.filter_cons, hpa]
      · rw [Bool.not_eq_true] at hpa
        simp only [List.filter_cons, hpa, Bool.false_eq_true, if_false]
        exact contains_eq_false_of_lt n _ fun i hi => Nat.lt_of_succ_le (tail_ge i hi)
    | inr h =>
      have hge := mem_enumFrom_le t (n + 1) q h
      have hne : (q.1 == n) = false := beq_eq_false_iff_ne.mpr (by omega)
      show ((((n, a) :: t.enumFrom (n + 1)).filter fun r => p r.2).map Prod.fst).contains q.1
        = p q.2
      by_cases hpa : p a = true
      · simp only [List.filter_cons, hpa, if_true, List.map_cons, List.contains_cons, hne,
          Bool.false_or]
        exact ih (n + 1) q h
      · rw [Bool.not_eq_true] at hpa
        simp only [List.filter_cons, hpa, Bool.false_eq_true, if_false]
        exact ih (n + 1) q h

/-- Filtering an enumeration against any index list that agrees pointwise
with a flag on the enumerated values is plain filtering by that flag. -/
theorem filter_by_idx {α : Type} (p : α → Bool) (idxs : List Nat) (l : List α) :
    ∀ (n : Nat), (∀ q ∈ l.enumFrom n, idxs.contains q.1 = p q.2) →
      ((l.enumFrom n).filter fun q => !idxs.contains q.1).map Prod.snd =
        l.filter fun a => !p a := by
  induction l with
  | nil => intro n _; simp [List.enumFrom]
  | cons a t ih =>
    intro n hI
    have hhead : idxs.contains n = p a := hI (n, a) (by simp [List.enumFrom])
    have htail := ih (n + 1) fun q hq => hI q (by simp [List.enumFrom, hq])
    show (((n, a) :: t.enumFrom (n + 1)).filter fun q => !idxs.contains q.1).map Prod.snd =
      (a :: t).filter fun x => !p x
    by_cases hpa : p a = true
    · simp only [List.filter_cons, hhead, hpa, Bool.not_true, Bool.false_eq_true, if_false]
      exact htail
    · rw [Bool.not_eq_true] at hpa
      simp only [List.filter_cons, hhead, hpa, Bool.not_false, if_true, List.map_cons]
      exact congrArg (a :: ·) htail

/-- The first components of the diagnostic tuples of the validator are the
indices of the flagged chunks. -/
theorem validate_map_fst (docs : List Document) :
    (validate_processed_chunks docs).map (fun t => t.1) =
      (docs.enum.filter fun p => chunkFlagged p.2).map Prod.fst := by
  unfold validate_processed_chunks
  rw [List.map_map]
  rfl

/-- Removing the validator-flagged indices from the aggregated list is
filtering out exactly the flagged chunks, preserving order. -/
theorem cleaned_eq (docs : List Document) :
    ((docs.enum.filter fun p =>
        !((validate_processed_chunks docs).map fun t => t.1).contains p.1).map Prod.snd) =
      docs.filter fun d => !chunkFlagged d := by
  have h : ∀ q ∈ docs.enumFrom 0,
      (((validate_processed_chunks docs).map fun t => t.1).contains q.1) = chunkFlagged q.2 := by
    intro q hq
    rw [validate_map_fst]
    exact idx_contains chunkFlagged docs 0 q hq
  exact filter_by_idx chunkFlagged _ docs 0 h

/-- The validator flags nothing exactly when no chunk is flagged. -/
theorem validate_eq_nil_iff (docs : List Document) :
    validate_processed_chunks docs = [] ↔ ∀ d ∈ docs, chunkFlagged d = false := by
  unfold validate_processed_chunks
  rw [List.map_eq_nil, List.filter_eq_nil]
  constructor
  · intro h d hd
    obtain ⟨q, hq, hqd⟩ := mem_of_mem_enumFrom docs 0 d hd
    have := h q hq
    rw [hqd] at this
    simpa using this
  · intro h q hq
    have := h q.2 (mem_enumFrom_snd docs 0 q hq)
    simp [this]

/-- The chunk of an admitted page carries the document type the pipeline
was called with. -/
theorem processPage_document_type {entry : ManifestEntry} {dt : String}
    {pn tp : Nat} {text : String} {c : Document}
    (h : processPage entry dt pn tp text = some c) :
    c.metadata.document_type = dt := by
  simp only [processPage] at h
  split at h
  · cases h
  · cases h; rfl

/-- The chunk of an admitted page carries either the detected life stages or
the default `["general"]` tag. -/
theorem processPage_life_stages {entry : ManifestEntry} {dt : String}
    {pn tp : Nat} {text : String} {c : Document}
    (h : processPage entry dt pn tp text = some c) :
    c.metadata.life_stages = ContentFilter.detect_life_stages text ∨
      c.metadata.life_stages = ["general"] := by
  simp only [processPage] at h
  split at h
  · cases h
  · cases h
    by_cases hn : 3 ≤ countMatches ContentFilter.NUTRITION_KEYWORDS (lowerStr text)
    · left; simp [hn]
    · right; simp [hn]

/-- The chunk of an admitted page with a low nutrition-keyword count is
tagged `["general"]` without scanning for life-stage terms. -/
theorem processPage_life_stages_low {entry : ManifestEntry} {dt : String}
    {pn tp : Nat} {text : String} {c : Document}
    (hlow : countMatches ContentFilter.NUTRITION_KEYWORDS (lowerStr text) < 3)
    (h : processPage entry dt pn tp text = some c) :
    c.metadata.life_stages = ["general"] := by
  simp only [processPage] at h
  split at h
  · cases h
  · cases h
    have hn : ¬3 ≤ countMatches ContentFilter.NUTRITION_KEYWORDS (lowerStr text) := by
      omega
    simp [hn]

/-- Every chunk of a processed document comes from some admitted page. -/
theorem mem_processPages {entry : ManifestEntry} {dt : String}
    {pages : List (Except Unit String)} {c : Document}
    (h : c ∈ processPages entry dt pages) :
    ∃ i text, processPage entry dt (i + 1) pages.length text = some c := by
  unfold processPages at h
  obtain ⟨p, hp, hsome⟩ := List.mem_filterMap.mp h
  cases hp2 : p.2 with
  | error u => rw [hp2] at hsome; cases hsome
  | ok text => rw [hp2] at hsome; exact ⟨p.1, text, hsome⟩

/-- The detected life stages are never the empty list. -/
theorem detect_life_stages_ne_nil (text : String) :
    ContentFilter.detect_life_stages text ≠ [] := by
  unfold ContentFilter.detect_life_stages
  by_cases h : (ContentFilter.life_stage_tags text).isEmpty
  · simp [h]
  · simp only [h, Bool.false_eq_true, if_false]
    intro hnil
    rw [hnil] at h
    exact h rfl

/-- Skipping one erroring manifest entry leaves the aggregated chunks
and the success count unchanged and adds one failure. -/
theorem processCorpus_skip (e : ManifestEntry × DocSource)
    (h : process_single_document e.1 e.2 = Except.error ()) :
    ∀ pre post : List (ManifestEntry × DocSource),
      processCorpusEntries (pre ++ e :: post) =
        ((processCorpusEntries (pre ++ post)).1,
         (processCorpusEntries (pre ++ post)).2.1,
         (processCorpusEntries (pre ++ post)).2.2 + 1) := by
  intro pre
  induction pre with
  | nil =>
    intro post
    simp only [List.nil_append, processCorpusEntries, h]
  | cons x pre ih =>
    intro post
    rw [List.cons_append, List.cons_append]
    cases hx : process_single_document x.1 x.2 with
    | error u =>
      simp only [processCorpusEntries, hx]
      rw [ih post]
    | ok docs =>
      simp only [processCorpusEntries, hx]
      rw [ih post]

/-- Unfolding of `postValidate` on a successful validator outcome. -/
theorem postValidate_ok (docs : List Document)
    (prob : List (Nat × String × Nat × Nat × Nat × Nat × String)) :
    postValidate docs (Except.ok prob) =
      if prob.isEmpty then Except.ok docs
      else if ((docs.enum.filter fun p =>
          !(prob.map fun t => t.1).contains p.1).map Prod.snd).isEmpty then
        Except.error emptyCorpusError
      else
        Except.ok ((docs.enum.filter fun p =>
          !(prob.map fun t => t.1).contains p.1).map Prod.snd) := rfl

/-- C1: for every admitted page with at least 3 nutrition-keyword
matches whose text contains both a medical trigger term and a
professional-only trigger term, the safety level of the emitted chunk is
`professional_use_only` and never `medical_caution`: the professional
trigger wins over `medical_caution`. -/
theorem c1_professional_trigger_wins
    (entry : ManifestEntry) (dt : String) (page_num total_pages : Nat)
    (text : String) (c : Document)
    (hn : 3 ≤ countMatches ContentFilter.NUTRITION_KEYWORDS (lowerStr text))
    (hmed : medical_triggers.any (fun t => strContains (lowerStr text) t) = true)
    (hpro : professional_triggers.any (fun t => strContains (lowerStr text) t) = true)
    (hc : processPage entry dt page_num total_pages text = some c) :
    c.metadata.safety_level = "professional_use_only" ∧
      c.metadata.safety_level ≠ "medical_caution" := by
  have hs : c.metadata.safety_level = "professional_use_only" := by
    simp only [processPage] at hc
    split at hc
    · cases hc
    · cases hc
      show computeSafetyLevel (lowerStr text)
        (countMatches ContentFilter.NUTRITION_KEYWORDS (lowerStr text)) = _
      unfold computeSafetyLevel
      rw [if_neg (by omega)]
      simp [hpro]
  exact ⟨hs, by rw [hs]; decide⟩

/-- Witness for C1: a concrete admitted page carrying both a medical
and a professional trigger is labeled `professional_use_only`. -/
theorem c1_witness :
    ((processPage dgaEntry "core_guideline" 25 30 triggerPage).map
       fun c => c.metadata.safety_level) = some "professional_use_only" := by
  cases hcc : processPage dgaEntry "core_guideline" 25 30 triggerPage with
  | none => exact absurd hcc (by decide)
  | some c =>
    have h := (c1_professional_trigger_wins dgaEntry "core_guideline" 25 30 triggerPage c
      (by decide) (by decide) (by decide) hcc).1
    simp [h]

/-- C4 counterexample: the manifest entry of end-to-end scenario A
(id "dga_2020", topics ["sodium"]) yields chunks with document type
`core_guideline`, not `nutrient_specific` as the claim asserts — the
topics list plays no role and the id contains none of the
nutrient-specific substrings. -/
theorem c4_counterexample :
    (process_single_document dgaEntry (DocSource.pdf [Except.ok dgaPage])).map
        (fun docs => docs.map fun c => c.metadata.document_type) =
      Except.ok ["core_guideline"] ∧ ("core_guideline" : String) ≠ "nutrient_specific" :=
  ⟨by decide, by decide⟩

/-- C4 (amended): document type is derived once per document from the
manifest id alone by the precedence nutrient-specific substrings →
`nutrient_specific`, else "summary"/"executive" → `summary`, else
`core_guideline`; and for the scenario-A entry with id "dga_2020" and
topics ["sodium"] the admitted pages get document type
`core_guideline`. -/
theorem c4_document_type (entry : ManifestEntry) (src : DocSource) :
    (∀ docs, process_single_document entry src = Except.ok docs →
       ∀ c ∈ docs, c.metadata.document_type = deriveDocType entry.id) ∧
    (["nutrient", "sodium", "sugar", "fat", "vitamin"].any
        (fun k => strContains (lowerStr entry.id) k) = true →
       deriveDocType entry.id = "nutrient_specific") ∧
    (["nutrient", "sodium", "sugar", "fat", "vitamin"].any
        (fun k => strContains (lowerStr entry.id) k) = false →
       (strContains (lowerStr entry.id) "summary" ||
        strContains (lowerStr entry.id) "executive") = true →
       deriveDocType entry.id = "summary") ∧
    (["nutrient", "sodium", "sugar", "fat", "vitamin"].any
        (fun k => strContains (lowerStr entry.id) k) = false →
       (strContains (lowerStr entry.id) "summary" ||
        strContains (lowerStr entry.id) "executive") = false →
       deriveDocType entry.id = "core_guideline") ∧
    deriveDocType "dga_2020" = "core_guideline" := by
  refine ⟨?_, ?_, ?_, ?_, by decide⟩
  · intro docs hdocs c hc
    cases src with
    | missing => cases hdocs
    | readError => cases hdocs
    | pdf pages =>
      simp only [process_single_document] at hdocs
      cases hdocs
      obtain ⟨i, text, hp⟩ := mem_processPages hc
      exact processPage_document_type hp
  · intro h
    unfold deriveDocType
    rw [if_pos h]
  · intro h1 h2
    unfold deriveDocType
    rw [if_neg (by simp [h1]), if_pos h2]
  · intro h1 h2
    unfold deriveDocType
    rw [if_neg (by simp [h1]), if_neg (by simp [h2])]

/-- Witness for C4: an id containing "sodium" is classified
`nutrient_specific`. -/
theorem c4_witness : deriveDocType "sodium_reduction" = "nutrient_specific" :=
  (c4_document_type ⟨"sodium_reduction", "s.pdf", none⟩ DocSource.missing).2.1 (by decide)

/-- C6: `detect_nutrient_tables` returns true iff at least 2 nutrient
indicators occur and no disqualifier occurs; any present disqualifier
forces false even with 2 or more indicators. -/
theorem c6_detect_nutrient_tables (text : String) :
    (TableProcessor.detect_nutrient_tables text = true ↔
      (2 ≤ TableProcessor.nutrient_indicators.countP
          (fun ind => strContains (lowerStr text) ind) ∧
       TableProcessor.non_nutrient_indicators.any
          (fun ind => strContains (lowerStr text) ind) = false)) ∧
    (∀ d ∈ TableProcessor.non_nutrient_indicators,
       strContains (lowerStr text) d = true →
       TableProcessor.detect_nutrient_tables text = false) := by
  constructor
  · unfold TableProcessor.detect_nutrient_tables
    simp
  · intro d hd hds
    have hany : TableProcessor.non_nutrient_indicators.any
        (fun ind => strContains (lowerStr text) ind) = true :=
      List.any_eq_true.mpr ⟨d, hd, hds⟩
    unfold TableProcessor.detect_nutrient_tables
    simp [hany]

/-- Witness for C6: a text with two nutrient indicators plus the
disqualifier "appendix" is rejected. -/
theorem c6_witness :
    TableProcessor.detect_nutrient_tables
      "Appendix: daily value and calcium tables" = false :=
  (c6_detect_nutrient_tables "Appendix: daily value and calcium tables").2
    "appendix" (by decide) (by decide)

/-- C9: if the chunk-flagging computation raises, the loader catches it
and returns the full aggregated chunk list unvalidated. -/
theorem c9_validation_exception_fallback (corpus : List (ManifestEntry × DocSource)) :
    load_and_preprocess_documentsWith corpus (Except.error ()) =
      Except.ok (processCorpusEntries corpus).1 := rfl

/-- C5: every page beyond page 20 with at least 3 nutrition-keyword
matches whose non-empty text matches no administrative phrase, no
table-of-contents pattern and no copyright pattern is admitted. -/
theorem c5_high_page_admitted (text : String)
    (page_num total_pages nutrition_matches : Nat)
    (hp : 20 < page_num) (hn : 3 ≤ nutrition_matches)
    (hne : (stripStr text).data ≠ [])
    (hadmin : ∀ pat ∈ ContentFilter.USDA_ADMIN_PATTERNS,
       strContains (stripStr (lowerStr text)) pat = false)
    (htoc : ¬(strContains (stripStr (lowerStr text)) "table of contents" = true ∧
              strContains (stripStr (lowerStr text)) "page" = true ∧
              wordCount (stripStr (lowerStr text)) < 500))
    (hcopy : ¬((strContains (stripStr (lowerStr text)) "copyright" = true ∨
                strContains (stripStr (lowerStr text)) "©" = true) ∧
               strContains (stripStr (lowerStr text)) "reserved" = true ∧
               wordCount (stripStr (lowerStr text)) < 300)) :
    ContentFilter.is_low_value_page text page_num total_pages nutrition_matches = false := by
  have hne2 : text.data.isEmpty = false := by
    cases h : text.data with
    | nil =>
      exfalso
      apply hne
      show trimChars text.data = []
      rw [h]
      rfl
    | cons a l => rfl
  have hne3 : (stripStr text).data.isEmpty = false := by
    cases h : (stripStr text).data with
    | nil => exact absurd h hne
    | cons a l => rfl
  unfold ContentFilter.is_low_value_page
  rw [if_neg (by simp [hne2, hne3])]
  show (if page_num ≤ 15 ∧ 1 ≤ ContentFilter.USDA_ADMIN_PATTERNS.countP
          (fun pat => strContains (stripStr (lowerStr text)) pat) then true
        else if page_num ≤ 20 ∧ nutrition_matches < 3 then true
        else if strContains (stripStr (lowerStr text)) "table of contents" ∧
            strContains (stripStr (lowerStr text)) "page" ∧
            wordCount (stripStr (lowerStr text)) < 500 then true
        else if (strContains (stripStr (lowerStr text)) "copyright" ∨
            strContains (stripStr (lowerStr text)) "©") ∧
            strContains (stripStr (lowerStr text)) "reserved" ∧
            wordCount (stripStr (lowerStr text)) < 300 then true
        else false) = false
  rw [if_neg (fun hq => absurd hq.1 (by omega)),
      if_neg (fun hq => absurd hq.2 (by omega)),
      if_neg htoc, if_neg hcopy]

/-- Witness for C5: a concrete nutrition-dense page at page 25 is
admitted. -/
theorem c5_witness :
    ContentFilter.is_low_value_page c5Text 25 300 5 = false :=
  c5_high_page_admitted c5Text 25 300 5 (by decide) (by decide) (by decide)
    (by decide) (by decide) (by decide)

/-- C7: `detect_life_stages` never returns the empty list and falls back
to `["general"]` when no tag matches; every emitted chunk has non-empty
life stages; and an admitted page with fewer than 3 nutrition-keyword
matches is tagged `["general"]` regardless of its text. -/
theorem c7_life_stages_nonempty :
    (∀ text, ContentFilter.detect_life_stages text ≠ []) ∧
    (∀ text, ContentFilter.life_stage_tags text = [] →
       ContentFilter.detect_life_stages text = ["general"]) ∧
    (∀ (entry : ManifestEntry) (src : DocSource) (docs : List Document),
       process_single_document entry src = Except.ok docs →
       ∀ c ∈ docs, c.metadata.life_stages ≠ []) ∧
    (∀ (entry : ManifestEntry) (dt : String) (pn tp : Nat) (text : String)
       (c : Document),
       countMatches ContentFilter.NUTRITION_KEYWORDS (lowerStr text) < 3 →
       processPage entry dt pn tp text = some c →
       c.metadata.life_stages = ["general"]) := by
  refine ⟨detect_life_stages_ne_nil, ?_, ?_, ?_⟩
  · intro text h
    unfold ContentFilter.detect_life_stages
    simp [h]
  · intro entry src docs hdocs c hc
    cases src with
    | missing => cases hdocs
    | readError => cases hdocs
    | pdf pages =>
      simp only [process_single_document] at hdocs
      cases hdocs
      obtain ⟨i, t, hpg⟩ := mem_processPages hc
      cases processPage_life_stages hpg with
      | inl h => rw [h]; exact detect_life_stages_ne_nil t
      | inr h => rw [h]; simp
  · intro entry dt pn tp text c hlow hpg
    exact processPage_life_stages_low hlow hpg

/-- Witness for C7: a text matching no life-stage tag yields
`["general"]`. -/
theorem c7_witness : ContentFilter.detect_life_stages "2300 mg" = ["general"] :=
  c7_life_stages_nonempty.2.1 "2300 mg" (by decide)

/-- C8: an entry whose processing raises (in particular one whose file
path is missing) contributes zero chunks and one failure, the other
chunks of the other entries are unchanged, and the overall run result is the same
as without that entry. -/
theorem c8_entry_failure_isolated
    (pre post : List (ManifestEntry × DocSource)) (e : ManifestEntry × DocSource)
    (h : process_single_document e.1 e.2 = Except.error ()) :
    (∀ ent : ManifestEntry,
       process_single_document ent DocSource.missing = Except.error ()) ∧
    (processCorpusEntries (pre ++ e :: post)).1 = (processCorpusEntries (pre ++ post)).1 ∧
    (processCorpusEntries (pre ++ e :: post)).2.1 =
      (processCorpusEntries (pre ++ post)).2.1 ∧
    (processCorpusEntries (pre ++ e :: post)).2.2 =
      (processCorpusEntries (pre ++ post)).2.2 + 1 ∧
    load_and_preprocess_documents (pre ++ e :: post) =
      load_and_preprocess_documents (pre ++ post) := by
  have key := processCorpus_skip e h pre post
  refine ⟨fun ent => rfl, by rw [key], by rw [key], by rw [key], ?_⟩
  unfold load_and_preprocess_documents load_and_preprocess_documentsWith
  rw [key]

/-- Witness for C8: a single missing-path entry yields zero chunks and
one recorded failure. -/
theorem c8_witness :
    (processCorpusEntries [(⟨"missing_doc", "gone.pdf", none⟩, DocSource.missing)]).1 =
      (processCorpusEntries []).1 ∧
    (processCorpusEntries [(⟨"missing_doc", "gone.pdf", none⟩, DocSource.missing)]).2.2 =
      (processCorpusEntries []).2.2 + 1 := by
  have h := c8_entry_failure_isolated [] []
    (⟨"missing_doc", "gone.pdf", none⟩, DocSource.missing) (by decide)
  exact ⟨h.2.1, h.2.2.2.1⟩

/-- C2: if every chunk of a non-empty aggregated list is flagged, the
validation step raises the integrity error instead of returning the
empty corpus. -/
theorem c2_integrity_error_on_empty (docs : List Document)
    (hne : docs ≠ []) (hall : ∀ d ∈ docs, chunkFlagged d = true) :
    postValidate docs (Except.ok (validate_processed_chunks docs)) =
      Except.error emptyCorpusError := by
  have hclean : ((docs.enum.filter fun p =>
      !((validate_processed_chunks docs).map fun t => t.1).contains p.1).map Prod.snd) = [] := by
    rw [cleaned_eq]
    exact List.filter_eq_nil_iff.mpr fun d hd => by simp [hall d hd]
  have hprob : (validate_processed_chunks docs).isEmpty = false := by
    cases hv : validate_processed_chunks docs with
    | nil =>
      obtain ⟨d, hd⟩ := List.exists_mem_of_ne_nil docs hne
      have hfalse := (validate_eq_nil_iff docs).mp hv d hd
      rw [hall d hd] at hfalse
      cases hfalse
    | cons a l => rfl
  rw [postValidate_ok, if_neg (by simp [hprob]), if_pos (show _ = true by rw [hclean]; rfl)]

/-- Witness for C2: a singleton corpus whose only chunk is a
suggested-citation chunk triggers the integrity error. -/
theorem c2_witness :
    postValidate [suggestedCitationChunk]
      (Except.ok (validate_processed_chunks [suggestedCitationChunk])) =
      Except.error emptyCorpusError :=
  c2_integrity_error_on_empty [suggestedCitationChunk] (by decide) (by decide)

/-- C3: a chunk survives corpus validation iff it is not flagged, in the
original order, and the scenario-C suggested-citation chunk is flagged
(hence always removed). -/
theorem c3_validator_keeps_unflagged (docs : List Document)
    (h : docs.filter (fun d => !chunkFlagged d) ≠ []) :
    postValidate docs (Except.ok (validate_processed_chunks docs)) =
      Except.ok (docs.filter fun d => !chunkFlagged d) ∧
    chunkFlagged suggestedCitationChunk = true := by
  refine ⟨?_, by decide⟩
  rw [postValidate_ok]
  by_cases hv : validate_processed_chunks docs = []
  · have hall := (validate_eq_nil_iff docs).mp hv
    have hfilter : docs.filter (fun d => !chunkFlagged d) = docs :=
      List.filter_eq_self.mpr fun d hd => by simp [hall d hd]
    rw [hv, hfilter]
    rfl
  · have hprob : (validate_processed_chunks docs).isEmpty = false := by
      cases hvv : validate_processed_chunks docs with
      | nil => exact absurd hvv hv
      | cons a l => rfl
    rw [if_neg (by simp [hprob]), cleaned_eq,
      if_neg fun hh => h (List.isEmpty_iff.mp hh)]

/-- Witness for C3: a singleton corpus with one unflagged
nutrition-dense chunk passes validation unchanged. -/
theorem c3_witness :
    postValidate [sodiumChunk]
      (Except.ok (validate_processed_chunks [sodiumChunk])) =
      Except.ok ([sodiumChunk].filter fun d => !chunkFlagged d) :=
  (c3_validator_keeps_unflagged [sodiumChunk] (by decide)).1

/-- C10: an empty aggregated chunk list passes through
`load_and_preprocess_documents` as an empty success; the integrity
error fires only when the aggregate was non-empty, at least one chunk
was flagged and the removal left nothing. -/
theorem c10_empty_aggregate_ok (corpus : List (ManifestEntry × DocSource)) :
    ((processCorpusEntries corpus).1 = [] →
       load_and_preprocess_documents corpus = Except.ok []) ∧
    (∀ msg, load_and_preprocess_documents corpus = Except.error msg →
       (processCorpusEntries corpus).1 ≠ [] ∧
       validate_processed_chunks (processCorpusEntries corpus).1 ≠ [] ∧
       (processCorpusEntries corpus).1.filter (fun d => !chunkFlagged d) = []) := by
  constructor
  · intro h0
    unfold load_and_preprocess_documents load_and_preprocess_documentsWith
    rw [h0]
    rfl
  · intro msg herr
    unfold load_and_preprocess_documents load_and_preprocess_documentsWith at herr
    rw [postValidate_ok] at herr
    by_cases hv : validate_processed_chunks (processCorpusEntries corpus).1 = []
    · rw [hv] at herr
      simp at herr
    · have hprob : (validate_processed_chunks (processCorpusEntries corpus).1).isEmpty
          = false := by
        cases hvv : validate_processed_chunks (processCorpusEntries corpus).1 with
        | nil => exact absurd hvv hv
        | cons a l => rfl
      rw [if_neg (by simp [hprob]), cleaned_eq] at herr
      by_cases hc : ((processCorpusEntries corpus).1.filter fun d => !chunkFlagged d) = []
      · refine ⟨?_, hv, hc⟩
        intro h0
        rw [h0] at hv
        exact hv rfl
      · rw [if_neg fun hh => hc (List.isEmpty_iff.mp hh)] at herr
        exact Except.noConfusion herr

/-- Witness for C10: an empty corpus loads as an empty success. -/
theorem c10_witness : load_and_preprocess_documents [] = Except.ok [] :=
  (c10_empty_aggregate_ok []).1 rfl
